import Mathlib

/-!
Shallow embedding of the update-ai-tools script (src/update-ai-tools.js).

The script is a Node.js command-line utility that keeps a fixed set of
npm-published AI command-line tools up to date.  External effects
(running npm, probing tool binaries, clearing the npm cache, reading the
confirmation answer) are modelled by an explicit `World` record of
response functions; every function of the script that the claims touch is
translated into a pure Lean function over that record.  JavaScript
strings are modelled as Lean `String` values, with the handful of
JavaScript string primitives the script uses (split, trim, toLowerCase,
includes, Number coercion, truthiness) re-implemented over `List Char`
so that everything evaluates inside the kernel.
-/

namespace UpdateAiTools

/-- Splits a character list at every occurrence of the separator, keeping
empty segments, exactly like the JavaScript `String.prototype.split`
with a single-character separator (so the result is always nonempty and
the empty string splits to one empty segment). -/
def splitOnChar (sep : Char) : List Char → List (List Char)
  | [] => [[]]
  | c :: rest =>
    let r := splitOnChar sep rest
    if c = sep then [] :: r
    else
      match r with
      | [] => [[c]]
      | h :: t => (c :: h) :: t

/-- Removes leading and trailing whitespace, modelling the JavaScript
`String.prototype.trim`. -/
def trimChars (l : List Char) : List Char :=
  ((l.dropWhile Char.isWhitespace).reverse.dropWhile Char.isWhitespace).reverse

/-- Lower-cases every character, modelling the JavaScript
`String.prototype.toLowerCase` on the ASCII inputs the script handles. -/
def lowerChars (l : List Char) : List Char :=
  l.map Char.toLower

/-- Decides whether the pattern occurs at the head of the text. -/
def matchesAt : List Char → List Char → Bool
  | _, [] => true
  | [], _ :: _ => false
  | c :: cs, d :: ds => c = d && matchesAt cs ds

/-- Decides whether the pattern occurs anywhere in the text, modelling the
JavaScript `String.prototype.includes`. -/
def hasSubChars : List Char → List Char → Bool
  | [], pat => pat.isEmpty
  | c :: cs, pat => matchesAt (c :: cs) pat || hasSubChars cs pat

/-- String-level wrapper for `hasSubChars`. -/
def strHasSub (s pat : String) : Bool :=
  hasSubChars s.data pat.data

/-- Decides whether the character is an ASCII decimal digit. -/
def isDigitChar (c : Char) : Bool :=
  '0' ≤ c && c ≤ '9'

/-- Reads a digit list as a natural number. -/
def digitsToNat (l : List Char) : Nat :=
  l.foldl (fun acc c => acc * 10 + (c.toNat - '0'.toNat)) 0

/-- Models the JavaScript `Number(component)` coercion on the grammar of
dot-split version components: surrounding whitespace is ignored, the
empty string is 0, an optionally signed run of decimal digits is its
integer value, and anything else is NaN (returned as `none`).  Exotic
numeric forms (hexadecimal, exponent notation) are outside this model;
they cannot arise from the dotted-numeric version strings the claims
quantify over. -/
def jsNumChars (l : List Char) : Option Int :=
  let t := trimChars l
  match t with
  | [] => some 0
  | c :: rest =>
    if c = '-' then
      if !rest.isEmpty && rest.all isDigitChar then some (-(Int.ofNat (digitsToNat rest))) else none
    else if c = '+' then
      if !rest.isEmpty && rest.all isDigitChar then some (Int.ofNat (digitsToNat rest)) else none
    else if (c :: rest).all isDigitChar then some (Int.ofNat (digitsToNat (c :: rest))) else none

/-- The numeric components of a version string: the string is split on
dots, each component is coerced with `Number`, and a NaN component is
replaced by 0 exactly as the `parts[i] || 0` read in `compareVersions`
does (`NaN || 0` and `0 || 0` both evaluate to 0). -/
def versionParts (v : String) : List Int :=
  (splitOnChar '.' v.data).map (fun comp => (jsNumChars comp).getD 0)

/-- The remaining iterations of the `compareVersions` loop once the
left-hand list is exhausted: each remaining right component is compared
against 0. -/
def cmpNilLeft : List Int → Int
  | [] => 0
  | b :: bs => if 0 < b then -1 else if b < 0 then 1 else cmpNilLeft bs

/-- The remaining iterations of the `compareVersions` loop once the
right-hand list is exhausted: each remaining left component is compared
against 0. -/
def cmpNilRight : List Int → Int
  | [] => 0
  | a :: as => if a < 0 then -1 else if 0 < a then 1 else cmpNilRight as

/-- The index loop of `compareVersions`: components are compared pairwise
from the left, a missing trailing component reads as 0 (`parts[i] || 0`
on an out-of-range index), and the first strict difference decides the
result. -/
def cmpParts : List Int → List Int → Int
  | [], bs => cmpNilLeft bs
  | a :: as, bs =>
    match bs with
    | [] => if a < 0 then -1 else if 0 < a then 1 else cmpNilRight as
    | b :: bs' => if a < b then -1 else if b < a then 1 else cmpParts as bs'

/-- The `compareVersions` function of the script.  A falsy (empty)
argument makes the script return the JavaScript value `false`, modelled
here as `none`; otherwise the result is -1, 0 or 1 from the component
loop. -/
def compareVersions (v1 v2 : String) : Option Int :=
  if v1 = "" || v2 = "" then none
  else some (cmpParts (versionParts v1) (versionParts v2))

/-- Models the JavaScript test `comparison < 0` on the result of
`compareVersions`: the `false` result coerces to 0, so it is not below
zero. -/
def jsLtZero : Option Int → Bool
  | none => false
  | some c => decide (c < 0)

/-- JavaScript truthiness of a nullable string: `null` and the empty
string are falsy. -/
def truthy : Option String → Bool
  | none => false
  | some s => s ≠ ""

/-- Models the JavaScript `a || b` on nullable strings. -/
def jsOr (a b : Option String) : Option String :=
  if truthy a then a else b

/-- The status a tool ends up with in the classification step of
`installPackagesWithConfirmation` (and the check subcommand). -/
inductive ToolStatus where
  | upToDate
  | updateAvailable
  | notInstalled
  | unknownVersion
deriving DecidableEq, Repr

/-- The classification branch structure of
`installPackagesWithConfirmation`: a tool that is not installed is
`notInstalled`; an installed tool with truthy local and remote versions
is `updateAvailable` exactly when `compareVersions` is negative and
`upToDate` otherwise; an installed tool whose versions could not both be
determined is `unknownVersion` (the script logs it as
"Could not check version, will update"). -/
def classifyTool (installed : Bool) (lv rv : Option String) : ToolStatus :=
  if installed then
    if truthy lv && truthy rv then
      if jsLtZero (compareVersions (lv.getD "") (rv.getD "")) then ToolStatus.updateAvailable
      else ToolStatus.upToDate
    else ToolStatus.unknownVersion
  else ToolStatus.notInstalled

/-- The `isCacheError` predicate of the script: the stringified error is
scanned for a fixed set of substrings associated with corrupted npm
cache or temp state. -/
def isCacheError (errorString : String) : Bool :=
  strHasSub errorString "ENOENT" ||
  strHasSub errorString "ENOTEMPTY" ||
  strHasSub errorString "_cacache" ||
  strHasSub errorString "git-clone" ||
  (strHasSub errorString "package.json" && strHasSub errorString "tmp")

/-- The `isNetworkError` predicate of the script: the stringified error
is scanned for DNS-failure, connection-reset, timeout and generic
network markers. -/
def isNetworkError (errorString : String) : Bool :=
  strHasSub errorString "ENOTFOUND" ||
  strHasSub errorString "ECONNRESET" ||
  strHasSub errorString "ETIMEDOUT" ||
  strHasSub errorString "network"

/-- The `getErrorType` function of the script: the cache patterns are
tested first, then the network patterns, and everything else is
"unknown". -/
def getErrorType (errorString : String) : String :=
  if isCacheError errorString then "cache"
  else if isNetworkError errorString then "network"
  else "unknown"

/-- The responses of the outside world to the external calls the script
makes.  Each field answers one kind of external command
deterministically: probing a binary, querying the npm global listing,
querying the registry, running an install command (indexed by the
attempt number within one `runWithRetry` call) and clearing the npm
cache (indexed by how many clears this call already performed). -/
structure World where
  binaryOutput : String → Option String
  pkgInListing : String → Bool
  pkgListedVersion : String → Option String
  pkgRemote : String → Option String
  attemptOk : String → Nat → Bool
  attemptError : String → Nat → String
  cacheClearOk : String → Nat → Bool

/-- The observable actions one `runWithRetry` call performs, in order:
running the command (attempt number attached), the best-effort npm
cache clear with its own outcome, and the fixed-duration sleeps
(`sleep 5` on network errors, `sleep 2` otherwise). -/
inductive ExecEvent where
  | attempt (i : Nat)
  | cacheClear (ok : Bool)
  | sleep (secs : Nat)
deriving DecidableEq, Repr

/-- The loop body of `runWithRetry`, recursing on the number of retries
still available.  On a failed attempt that is not the last one: a
cache-classified error with the cache not yet cleared triggers a
best-effort cache clear and an immediate retry with no sleep (whether or
not the clear itself succeeded — on a failed clear the code falls out of
the branch chain without sleeping); a network-classified error sleeps 5
seconds; anything else sleeps 2 seconds. -/
def runWithRetryAux (w : World) (cmd : String) : Nat → Nat → Nat → Bool → Bool × List ExecEvent
  | fuel, i, clears, cacheCleared =>
    if w.attemptOk cmd i then (true, [ExecEvent.attempt i])
    else
      match fuel with
      | 0 => (false, [ExecEvent.attempt i])
      | fuel' + 1 =>
        let et := getErrorType (w.attemptError cmd i)
        if et = "cache" && !cacheCleared then
          let ok := w.cacheClearOk cmd clears
          let r := runWithRetryAux w cmd fuel' (i + 1) (clears + 1) (cacheCleared || ok)
          (r.1, ExecEvent.attempt i :: ExecEvent.cacheClear ok :: r.2)
        else if et = "network" then
          let r := runWithRetryAux w cmd fuel' (i + 1) clears cacheCleared
          (r.1, ExecEvent.attempt i :: ExecEvent.sleep 5 :: r.2)
        else
          let r := runWithRetryAux w cmd fuel' (i + 1) clears cacheCleared
          (r.1, ExecEvent.attempt i :: ExecEvent.sleep 2 :: r.2)

/-- The `runWithRetry` function of the script: up to `retries` additional
attempts beyond the first, returning the final success flag together
with the trace of observable events.  The function always returns to its
caller; it never terminates the process. -/
def runWithRetry (w : World) (cmd : String) (retries : Nat) : Bool × List ExecEvent :=
  runWithRetryAux w cmd retries 0 0 false

/-- Counts the command attempts recorded in an event trace. -/
def countAttempts : List ExecEvent → Nat
  | [] => 0
  | ExecEvent.attempt _ :: rest => countAttempts rest + 1
  | _ :: rest => countAttempts rest

/-- Reference description of the success flag of `runWithRetryAux`: the
call succeeds exactly when some attempt in its window succeeds. -/
def resultOf (w : World) (cmd : String) : Nat → Nat → Bool
  | 0, i => w.attemptOk cmd i
  | fuel + 1, i => w.attemptOk cmd i || resultOf w cmd fuel (i + 1)

/-- Reference description of how many attempts `runWithRetryAux` makes:
one per failure until the first success, capped by the window. -/
def attemptsOf (w : World) (cmd : String) : Nat → Nat → Nat
  | 0, _ => 1
  | fuel + 1, i => if w.attemptOk cmd i then 1 else attemptsOf w cmd fuel (i + 1) + 1

/-- The fixed tool-name-to-npm-package table of the script. -/
def packagesTable : List (String × String) :=
  [("claude", "@anthropic-ai/claude-code"),
   ("gemini", "@google/gemini-cli"),
   ("copilot", "@github/copilot"),
   ("codex", "@openai/codex"),
   ("kilocode", "@kilocode/cli")]

/-- The fixed tool-name-to-probe-binary table of the script. -/
def binariesTable : List (String × String) :=
  [("claude", "claude"),
   ("gemini", "gemini"),
   ("copilot", "copilot"),
   ("codex", "codex"),
   ("kilocode", "kilocode")]

/-- The `getLocalPackageVersion` function: the version recorded for the
package in the npm global listing, with the `|| null` collapse of a
falsy (empty) version to absent.  A failed or malformed listing is
already `none` in the world. -/
def getLocalPackageVersion (w : World) (pkg : String) : Option String :=
  match w.pkgListedVersion pkg with
  | none => none
  | some v => if v = "" then none else some v

/-- The `getRemotePackageVersion` function: the trimmed output of the
registry query, or absent when the query failed. -/
def getRemotePackageVersion (w : World) (pkg : String) : Option String :=
  (w.pkgRemote pkg).map (fun s => String.mk (trimChars s.data))

/-- The `getBinaryVersion` function: the trimmed output of running the
probe binary with its version flag, reduced to its first line only for
the copilot binary; absent when the probe command failed. -/
def getBinaryVersion (binaryName : String) (output : Option String) : Option String :=
  output.map (fun o =>
    let t := trimChars o.data
    if binaryName = "copilot" then String.mk ((splitOnChar '\n' t).headD [])
    else String.mk t)

/-- The `isPackageInstalled` function: the package name is mapped back to
its probe binary through the two tables; a successful probe run means
installed, otherwise presence of the dependency entry in the npm global
listing decides. -/
def isPackageInstalled (w : World) (pkg : String) : Bool :=
  let nameKey := (packagesTable.find? (fun kv => kv.2 = pkg)).map (fun kv => kv.1)
  let binaryName := nameKey.bind (fun k => binariesTable.lookup k)
  match binaryName with
  | some b => (w.binaryOutput b).isSome || w.pkgInListing pkg
  | none => w.pkgInListing pkg

/-- The status the script assigns to a package in a given world. -/
def statusOf (w : World) (pkg : String) : ToolStatus :=
  classifyTool (isPackageInstalled w pkg) (getLocalPackageVersion w pkg) (getRemotePackageVersion w pkg)

/-- The three buckets `installPackagesWithConfirmation` builds while
scanning the requested package list. -/
structure Buckets where
  installedPackages : List String
  newPackages : List String
  upToDatePackages : List String
deriving DecidableEq, Repr

/-- The classification loop of `installPackagesWithConfirmation`: each
requested package is appended, in order, to the bucket its status
selects (an unknown version counts as needing update, as the script
pushes it onto the update list). -/
def partitionPackages (w : World) : List String → Buckets
  | [] => ⟨[], [], []⟩
  | pkg :: rest =>
    let b := partitionPackages w rest
    match statusOf w pkg with
    | ToolStatus.updateAvailable => ⟨pkg :: b.installedPackages, b.newPackages, b.upToDatePackages⟩
    | ToolStatus.unknownVersion => ⟨pkg :: b.installedPackages, b.newPackages, b.upToDatePackages⟩
    | ToolStatus.upToDate => ⟨b.installedPackages, b.newPackages, pkg :: b.upToDatePackages⟩
    | ToolStatus.notInstalled => ⟨b.installedPackages, pkg :: b.newPackages, b.upToDatePackages⟩

/-- The `askUser` helper: the raw line read from standard input is
lower-cased and trimmed before it is returned. -/
def askUser (rawAnswer : String) : String :=
  String.mk (trimChars (lowerChars rawAnswer.data))

/-- The bulk install command `installPackages` builds. -/
def bulkCmd (packageList : List String) : String :=
  "npm install -g " ++ String.intercalate " " packageList

/-- The single-package install command `installPackages` builds. -/
def singleCmd (pkg : String) : String :=
  "npm install -g " ++ pkg

/-- The one-at-a-time loop of `installPackages`: every package is
attempted with `runWithRetry` (2 retries) regardless of earlier
failures, and the successes are counted while the failures are
collected in order. -/
def installIndividually (w : World) : List String → List (String × Bool) × Nat × List String
  | [] => ([], 0, [])
  | pkg :: rest =>
    let ok := (runWithRetry w (singleCmd pkg) 2).1
    let r := installIndividually w rest
    ((singleCmd pkg, ok) :: r.1,
     (if ok then r.2.1 + 1 else r.2.1),
     (if ok then r.2.2 else pkg :: r.2.2))

/-- The `installPackages` function: with more than one package and not in
individual mode, a bulk command is attempted first with `runWithRetry`
(1 retry); only when it fails (or when bulk was never attempted) does the
individual loop run.  The result is the ordered trace of issued install
commands with their outcomes, plus the summary (success count and failed
packages) when the individual loop ran. -/
def installPackages (w : World) (packageList : List String) (individual : Bool) :
    List (String × Bool) × Option (Nat × List String) :=
  if !individual && packageList.length > 1 then
    if (runWithRetry w (bulkCmd packageList) 1).1 then
      ([(bulkCmd packageList, true)], none)
    else
      let r := installIndividually w packageList
      ((bulkCmd packageList, false) :: r.1, some r.2)
  else
    let r := installIndividually w packageList
    (r.1, some r.2)

/-- Everything observable about one `installPackagesWithConfirmation`
call: the three buckets (the new-package bucket after the prompt
decision), the final list handed to installation, and the trace of
install commands issued. -/
structure ConfirmRun where
  installedPackages : List String
  newPackages : List String
  upToDatePackages : List String
  packagesToInstall : List String
  installTrace : List (String × Bool)
deriving DecidableEq, Repr

/-- The `installPackagesWithConfirmation` function: the requested list is
partitioned by status; when the new-package bucket is nonempty the
operator is asked, and any normalized answer other than "y" or "yes"
clears that bucket; the update bucket and the surviving new bucket are
concatenated and installed (no install call happens when the
concatenation is empty). -/
def installPackagesWithConfirmation (w : World) (rawAnswer : String)
    (packageList : List String) (individual : Bool) : ConfirmRun :=
  let b := partitionPackages w packageList
  let answer := askUser rawAnswer
  let newAfterPrompt :=
    if b.newPackages.isEmpty then b.newPackages
    else if answer = "y" || answer = "yes" then b.newPackages
    else []
  let toInstall := b.installedPackages ++ newAfterPrompt
  ⟨b.installedPackages, newAfterPrompt, b.upToDatePackages, toInstall,
   if toInstall.isEmpty then [] else (installPackages w toInstall individual).1⟩

/-- One line of output of the check subcommand, carrying the information
the script prints for a tool. -/
inductive CheckLine where
  | updateAvailable (display remote : String)
  | upToDate (display : String)
  | unableToCheck (display : String)
  | notInstalled (latest : Option String)
deriving DecidableEq, Repr

/-- The per-tool body of the check subcommand: the displayed version is
the probe-reported version when truthy, else the npm-reported one; with
both npm versions truthy the update decision comes from
`compareVersions` on the npm local and remote versions; otherwise the
tool is reported unable to check, and with no displayable version it is
reported not installed with the latest remote version. -/
def checkRow (bv lv rv : Option String) : CheckLine :=
  let dv := jsOr bv lv
  if truthy dv then
    if truthy lv && truthy rv then
      if jsLtZero (compareVersions (lv.getD "") (rv.getD "")) then
        CheckLine.updateAvailable (dv.getD "") (rv.getD "")
      else CheckLine.upToDate (dv.getD "")
    else CheckLine.unableToCheck (dv.getD "")
  else CheckLine.notInstalled rv

/-- Decides whether a check line reports the tool as not installed. -/
def isNotInstalledLine : CheckLine → Bool
  | CheckLine.notInstalled _ => true
  | _ => false

/-- The version string a check line displays, when it displays one. -/
def displayOf : CheckLine → Option String
  | CheckLine.updateAvailable d _ => some d
  | CheckLine.upToDate d => some d
  | CheckLine.unableToCheck d => some d
  | CheckLine.notInstalled _ => none

/-- The kind of a check line, forgetting the displayed strings. -/
def lineKind : CheckLine → Nat
  | CheckLine.updateAvailable _ _ => 0
  | CheckLine.upToDate _ => 1
  | CheckLine.unableToCheck _ => 2
  | CheckLine.notInstalled _ => 3

/-- The `process.argv[2] || "all"` default: a missing or empty argument
reads as "all". -/
def argOf (argv2 : Option String) : String :=
  match argv2 with
  | none => "all"
  | some s => if s = "" then "all" else s

/-- The observable outcome of one whole run of the script. -/
structure RunResult where
  exitCode : Nat
  confirmRun : Option ConfirmRun
  checkLines : List (String × CheckLine)
deriving DecidableEq, Repr

/-- The `main` function of the script: "all" runs the confirmation
pipeline over every package; "check" prints one `checkRow` per tool
with no installation; a recognized tool name runs the confirmation
pipeline on that single package in individual mode; anything else prints
usage and exits with status 1.  Every completed run, whatever its
install outcomes, ends the process with status 0 (errors reaching the
top level are swallowed by the final catch). -/
def mainRun (w : World) (rawAnswer : String) (argv2 : Option String) : RunResult :=
  let arg := argOf argv2
  if arg = "all" then
    ⟨0, some (installPackagesWithConfirmation w rawAnswer (packagesTable.map (fun kv => kv.2)) false), []⟩
  else if arg = "check" then
    ⟨0, none,
     binariesTable.map (fun nb =>
       let pkg := (packagesTable.lookup nb.1).getD ""
       (nb.1, checkRow (getBinaryVersion nb.2 (w.binaryOutput nb.2))
                       (getLocalPackageVersion w pkg)
                       (getRemotePackageVersion w pkg)))⟩
  else
    match packagesTable.lookup arg with
    | some pkg => ⟨0, some (installPackagesWithConfirmation w rawAnswer [pkg] true), []⟩
    | none => ⟨1, none, []⟩

/-- Modelled from the spec: pads a component list with trailing zeros up
to the given length. -/
def padZeros (l : List Int) (n : Nat) : List Int :=
  l ++ List.replicate (n - l.length) 0

/-- Modelled from the spec: on equal-length component lists, the first
differing component determines the ordering. -/
def lexFirstDiff : List Int → List Int → Int
  | [], _ => 0
  | a :: as, bs =>
    match bs with
    | [] => 0
    | b :: bs' => if a < b then -1 else if b < a then 1 else lexFirstDiff as bs'

/-- Modelled from the spec: field-wise numeric comparison of component
lists, padding the shorter list with trailing zeros, the first differing
component determining the ordering. -/
def specCompare (a b : List Int) : Int :=
  lexFirstDiff (padZeros a (max a.length b.length)) (padZeros b (max a.length b.length))

/-- A world in which nothing is installed, registry lookups fail and
every install attempt fails with a network timeout. -/
def wNetFail : World where
  binaryOutput := fun _ => none
  pkgInListing := fun _ => false
  pkgListedVersion := fun _ => none
  pkgRemote := fun _ => none
  attemptOk := fun _ _ => false
  attemptError := fun _ _ => "npm ERR! ETIMEDOUT request timed out"
  cacheClearOk := fun _ _ => true

/-- A world with one up-to-date tool (claude), one tool with an update
available (gemini) and the rest not installed; install attempts always
succeed. -/
def wMixed : World where
  binaryOutput := fun _ => none
  pkgInListing := fun pkg => pkg = "@anthropic-ai/claude-code" || pkg = "@google/gemini-cli"
  pkgListedVersion := fun pkg =>
    if pkg = "@anthropic-ai/claude-code" then some "1.0.0"
    else if pkg = "@google/gemini-cli" then some "1.0.0"
    else none
  pkgRemote := fun pkg =>
    if pkg = "@anthropic-ai/claude-code" then some "1.0.0"
    else if pkg = "@google/gemini-cli" then some "2.0.0"
    else some "3.0.0"
  attemptOk := fun _ _ => true
  attemptError := fun _ _ => ""
  cacheClearOk := fun _ _ => true

theorem cmpNilLeft_spec : ∀ bs : List Int, cmpNilLeft bs = lexFirstDiff (List.replicate bs.length 0) bs
  | [] => rfl
  | b :: bs => by
    simp only [cmpNilLeft, List.length_cons, List.replicate_succ, lexFirstDiff]
    rw [cmpNilLeft_spec bs]

theorem cmpNilRight_spec : ∀ as : List Int, cmpNilRight as = lexFirstDiff as (List.replicate as.length 0)
  | [] => rfl
  | a :: as => by
    simp only [cmpNilRight, List.length_cons, List.replicate_succ, lexFirstDiff]
    rw [cmpNilRight_spec as]

theorem cmpParts_eq_specCompare : ∀ a b : List Int, cmpParts a b = specCompare a b
  | [], bs => by
    simp only [cmpParts, specCompare, padZeros, List.length_nil, Nat.zero_max, List.nil_append,
      Nat.sub_self, List.replicate_zero, List.append_nil, Nat.sub_zero]
    exact cmpNilLeft_spec bs
  | a :: as, [] => by
    simp only [cmpParts, specCompare, padZeros, List.length_nil, Nat.max_zero, List.length_cons,
      Nat.sub_self, List.replicate_zero, List.append_nil, Nat.sub_zero, List.nil_append,
      List.replicate_succ, lexFirstDiff]
    rw [cmpNilRight_spec as]
    simp [List.append_nil]
  | a :: as, b :: bs => by
    have hm : max (as.length + 1) (bs.length + 1) = max as.length bs.length + 1 :=
      Nat.succ_max_succ as.length bs.length
    simp only [cmpParts, specCompare, padZeros, List.length_cons, hm, Nat.succ_sub_succ,
      List.cons_append, lexFirstDiff]
    rw [cmpParts_eq_specCompare as bs]
    rfl


theorem classifyTool_updateAvailable_iff (lv rv : String) :
    classifyTool true (some lv) (some rv) = ToolStatus.updateAvailable ↔
      (lv ≠ "" ∧ rv ≠ "" ∧ cmpParts (versionParts lv) (versionParts rv) < 0) := by
  by_cases hl : lv = "" <;> by_cases hr : rv = "" <;>
    simp [classifyTool, truthy, compareVersions, jsLtZero, hl, hr] <;>
    split <;> simp_all

/-- C1: the status classifier compares version strings field-wise as
integers: the component loop of compareVersions agrees with the
spec-side padded field-wise comparison, "1.2" versus "1.2.0" is
up to date, "1.2.3" versus "1.2.4" has an update available, "2.0.0"
versus "1.9.9" is up to date, and a local version that is equal to or
greater than the remote under the field-wise comparison is never
classified as having an update available. -/
theorem claim1_version_comparison :
    (∀ a b : List Int, cmpParts a b = specCompare a b) ∧
    classifyTool true (some "1.2") (some "1.2.0") = ToolStatus.upToDate ∧
    classifyTool true (some "1.2.3") (some "1.2.4") = ToolStatus.updateAvailable ∧
    classifyTool true (some "2.0.0") (some "1.9.9") = ToolStatus.upToDate ∧
    (∀ lv rv : String, 0 ≤ cmpParts (versionParts lv) (versionParts rv) →
      classifyTool true (some lv) (some rv) ≠ ToolStatus.updateAvailable) := by
  refine ⟨cmpParts_eq_specCompare, by decide, by decide, by decide, ?_⟩
  intro lv rv h hc
  rw [classifyTool_updateAvailable_iff] at hc
  exact absurd hc.2.2 (not_lt.mpr h)

/-- C5: the error classifier tests the cache substrings before the
network substrings, so any text matching the cache set (even one also
matching the network set) classifies as "cache", and text matching
neither set classifies as "unknown". -/
theorem claim5_cache_precedence (e : String) :
    (isCacheError e = true → getErrorType e = "cache") ∧
    (isCacheError e = true ∧ isNetworkError e = true → getErrorType e = "cache") ∧
    (isCacheError e = false → isNetworkError e = false → getErrorType e = "unknown") := by
  refine ⟨fun h => ?_, fun h => ?_, fun h1 h2 => ?_⟩ <;> simp [getErrorType, *]

theorem truthy_jsOr_false (a b : Option String) :
    truthy (jsOr a b) = false ↔ (truthy a = false ∧ truthy b = false) := by
  by_cases ta : truthy a = true <;> simp [jsOr, ta]

theorem isNotInstalledLine_checkRow (a b c : Option String) :
    isNotInstalledLine (checkRow a b c) = true ↔ truthy (jsOr a b) = false := by
  by_cases hd : truthy (jsOr a b) = true <;>
    by_cases hl : truthy b = true <;> by_cases hc : truthy c = true <;>
    by_cases hj : jsLtZero (compareVersions (b.getD "") (c.getD "")) = true <;>
    simp [checkRow, hd, hl, hc, hj, isNotInstalledLine, Bool.not_eq_true] <;> simp_all

/-- C10: in the check subcommand row, a tool whose probe reports a
truthy version but whose npm local or registry remote version is absent
is shown with the probe version and marked unable to check for updates,
and a row reports not-installed exactly when both the probe version and
the npm local version are absent (absent meaning null or empty, the
falsy convention the script uses throughout). -/
theorem claim10_check_reporting (bv lv rv : Option String)
    (hbv : truthy bv = true) (hnot : ¬ (truthy lv = true ∧ truthy rv = true)) :
    checkRow bv lv rv = CheckLine.unableToCheck (bv.getD "") ∧
    (∀ bv2 lv2 rv2 : Option String,
      isNotInstalledLine (checkRow bv2 lv2 rv2) = true ↔ (truthy bv2 = false ∧ truthy lv2 = false)) := by
  constructor
  · simp [checkRow, jsOr, hbv]
    intro h1 h2
    exact absurd ⟨h1, h2⟩ hnot
  · intro bv2 lv2 rv2
    rw [isNotInstalledLine_checkRow, truthy_jsOr_false]

/-- C7 counterexample: for the managed tool gemini, multi-line probe
output is kept whole rather than reduced to its first line; and the
check row for a probe version strictly greater than the remote version
still reports an update because the comparison uses the
package-manager-reported local version, not the probe version. -/
theorem claim7_first_line_counterexample :
    (getBinaryVersion "gemini" (some "1.0.0\nextra line") = some "1.0.0\nextra line" ∧
      some "1.0.0\nextra line" ≠ (some "1.0.0" : Option String)) ∧
    (checkRow (some "9.9.9") (some "1.0.0") (some "2.0.0") = CheckLine.updateAvailable "9.9.9" "2.0.0" ∧
      compareVersions "9.9.9" "2.0.0" = some 1) := by
  exact ⟨⟨by decide, by decide⟩, ⟨by decide, by decide⟩⟩

/-- C7 amended: only the copilot probe output is reduced to its first
line (other binaries keep the whole trimmed output); a truthy
probe-reported version is what the check row displays, while the
update-availability decision is independent of the probe version and is
exactly the compareVersions test on the package-manager local and
remote versions. -/
theorem claim7_copilot_only_first_line :
    (∀ out : String, getBinaryVersion "copilot" (some out) =
      some (String.mk ((splitOnChar '\n' (trimChars out.data)).headD []))) ∧
    (∀ bin out : String, bin ≠ "copilot" →
      getBinaryVersion bin (some out) = some (String.mk (trimChars out.data))) ∧
    (∀ v lv rv : Option String, truthy v = true → displayOf (checkRow v lv rv) = v) ∧
    (∀ v v2 lv rv : Option String, truthy v = true → truthy v2 = true →
      lineKind (checkRow v lv rv) = lineKind (checkRow v2 lv rv)) ∧
    (∀ v lv rv : Option String, truthy v = true → truthy lv = true → truthy rv = true →
      (lineKind (checkRow v lv rv) = 0 ↔
        jsLtZero (compareVersions (lv.getD "") (rv.getD "")) = true)) := by
  refine ⟨fun out => by simp [getBinaryVersion], fun bin out h => by simp [getBinaryVersion, h], ?_, ?_, ?_⟩
  · intro v lv rv hv
    cases v with
    | none => simp [truthy] at hv
    | some s =>
      by_cases hl : truthy lv = true <;> by_cases hr : truthy rv = true <;>
        by_cases hc : jsLtZero (compareVersions (lv.getD "") (rv.getD "")) = true <;>
        simp [checkRow, jsOr, hv, hl, hr, hc, displayOf]
  · intro v v2 lv rv hv hv2
    by_cases hl : truthy lv = true <;> by_cases hr : truthy rv = true <;>
      by_cases hc : jsLtZero (compareVersions (lv.getD "") (rv.getD "")) = true <;>
      simp [checkRow, jsOr, hv, hv2, hl, hr, hc, lineKind]
  · intro v lv rv hv hl hr
    by_cases hc : jsLtZero (compareVersions (lv.getD "") (rv.getD "")) = true <;>
      simp [checkRow, jsOr, hv, hl, hr, hc, lineKind]

theorem runWithRetryAux_spec (w : World) (cmd : String) :
    ∀ fuel i clears cc, (runWithRetryAux w cmd fuel i clears cc).1 = resultOf w cmd fuel i ∧
      countAttempts (runWithRetryAux w cmd fuel i clears cc).2 = attemptsOf w cmd fuel i := by
  intro fuel
  induction fuel with
  | zero =>
    intro i clears cc
    by_cases h : w.attemptOk cmd i <;>
      simp [runWithRetryAux, resultOf, attemptsOf, countAttempts, h]
  | succ n ih =>
    intro i clears cc
    by_cases h : w.attemptOk cmd i
    · simp [runWithRetryAux, resultOf, attemptsOf, countAttempts, h]
    · simp only [runWithRetryAux, h, Bool.false_eq_true, if_false]
      split_ifs with h1 h2 <;>
        simp [countAttempts, resultOf, attemptsOf, h, ih (i+1)]

/-- C3: with maxRetries 2, a command failing on every attempt is tried
exactly 3 times and the executor returns failure (as a value, never
terminating the process), and a command failing twice then succeeding
returns success after exactly 3 attempts. -/
theorem claim3_retry_attempt_counts (w : World) (cmd : String) :
    ((∀ i, w.attemptOk cmd i = false) →
      (runWithRetry w cmd 2).1 = false ∧ countAttempts (runWithRetry w cmd 2).2 = 3) ∧
    (w.attemptOk cmd 0 = false → w.attemptOk cmd 1 = false → w.attemptOk cmd 2 = true →
      (runWithRetry w cmd 2).1 = true ∧ countAttempts (runWithRetry w cmd 2).2 = 3) := by
  have hs := runWithRetryAux_spec w cmd 2 0 0 false
  constructor
  · intro hfail
    rw [runWithRetry, hs.1, hs.2]
    simp [resultOf, attemptsOf, hfail 0, hfail 1, hfail 2]
  · intro h0 h1 h2
    rw [runWithRetry, hs.1, hs.2]
    simp [resultOf, attemptsOf, h0, h1, h2]

/-- C2: any confirmation answer whose normalized form is neither "y" nor
"yes" (empty input included) drops exactly the not-installed partition
from the plan, leaving the update partition and the up-to-date bucket
unchanged, while an explicit "y" or "yes" keeps the new packages in the
plan. -/
theorem claim2_decline_drops_new_only (w : World) (raw : String) (l : List String) (ind : Bool)
    (hy : askUser raw ≠ "y") (hyes : askUser raw ≠ "yes") :
    (installPackagesWithConfirmation w raw l ind).packagesToInstall =
      (partitionPackages w l).installedPackages ∧
    (installPackagesWithConfirmation w raw l ind).newPackages = [] ∧
    (installPackagesWithConfirmation w raw l ind).installedPackages =
      (partitionPackages w l).installedPackages ∧
    (installPackagesWithConfirmation w raw l ind).upToDatePackages =
      (partitionPackages w l).upToDatePackages ∧
    (∀ raw2, (askUser raw2 = "y" ∨ askUser raw2 = "yes") →
      (installPackagesWithConfirmation w raw2 l ind).packagesToInstall =
        (partitionPackages w l).installedPackages ++ (partitionPackages w l).newPackages) := by
  by_cases hne : (partitionPackages w l).newPackages.isEmpty
  · have hnil : (partitionPackages w l).newPackages = [] := List.isEmpty_iff.mp hne
    refine ⟨?_, ?_, ?_, ?_, ?_⟩ <;>
      simp [installPackagesWithConfirmation, hne, hnil]
  · refine ⟨?_, ?_, ?_, ?_, ?_⟩ <;>
      simp [installPackagesWithConfirmation, hne, hy, hyes]
    intro raw2 h2
    rcases h2 with h2 | h2 <;> simp [h2]

theorem installIndividually_trace (w : World) : ∀ l : List String,
    (installIndividually w l).1 = l.map (fun p => (singleCmd p, (runWithRetry w (singleCmd p) 2).1))
  | [] => rfl
  | p :: rest => by
    simp [installIndividually, installIndividually_trace w rest]

/-- C4: with more than one accepted tool and not in individual mode, a
single bulk install command over all tools is attempted first; exactly
when it fails, every tool is installed one at a time in the original
order regardless of individual failures; with one tool or in individual
mode the command trace holds only the per-tool commands and no bulk
command. -/
theorem claim4_bulk_then_individual_fallback (w : World) (l : List String) (ind : Bool) :
    ((ind = false ∧ l.length > 1) →
      ((runWithRetry w (bulkCmd l) 1).1 = true →
        (installPackages w l ind).1 = [(bulkCmd l, true)]) ∧
      ((runWithRetry w (bulkCmd l) 1).1 = false →
        (installPackages w l ind).1 =
          (bulkCmd l, false) :: l.map (fun p => (singleCmd p, (runWithRetry w (singleCmd p) 2).1)))) ∧
    ((ind = true ∨ l.length ≤ 1) →
      (installPackages w l ind).1 =
        l.map (fun p => (singleCmd p, (runWithRetry w (singleCmd p) 2).1))) := by
  constructor
  · rintro ⟨hind, hlen⟩
    subst hind
    constructor <;> intro hb <;>
      simp [installPackages, hlen, hb, installIndividually_trace]
  · rintro (h | h)
    · subst h
      simp [installPackages, installIndividually_trace]
    · have : ¬ (l.length > 1) := not_lt.mpr h
      simp [installPackages, this, installIndividually_trace]

theorem runWithRetryAux_head (w : World) (cmd : String) (fuel i clears : Nat) (cc : Bool) :
    ∃ rest, (runWithRetryAux w cmd fuel i clears cc).2 = ExecEvent.attempt i :: rest := by
  cases fuel with
  | zero =>
    by_cases h : w.attemptOk cmd i <;> exact ⟨[], by simp [runWithRetryAux, h]⟩
  | succ n =>
    by_cases h : w.attemptOk cmd i
    · exact ⟨[], by simp [runWithRetryAux, h]⟩
    · simp only [runWithRetryAux, h, Bool.false_eq_true, if_false]
      split_ifs <;> exact ⟨_, rfl⟩

/-- C6: within one executor call (runWithRetry w cmd r is
runWithRetryAux w cmd r 0 0 false), at any failing attempt that is not
the last one and at which the cache has not yet been cleared, a
cache-classified error performs the best-effort cache clear, whatever
its own outcome, and the next attempt follows immediately with no sleep
between; a network-classified error sleeps 5 seconds before the next
attempt and an unknown-classified error sleeps 2 seconds, the network
wait being strictly longer. -/
theorem claim6_error_aware_retry_strategy (w : World) (cmd : String) (fuel i clears : Nat)
    (hf : 1 ≤ fuel) (h0 : w.attemptOk cmd i = false) :
    (getErrorType (w.attemptError cmd i) = "cache" →
      (runWithRetryAux w cmd fuel i clears false).2.take 3 =
        [ExecEvent.attempt i, ExecEvent.cacheClear (w.cacheClearOk cmd clears),
         ExecEvent.attempt (i + 1)]) ∧
    (getErrorType (w.attemptError cmd i) = "network" →
      (runWithRetryAux w cmd fuel i clears false).2.take 3 =
        [ExecEvent.attempt i, ExecEvent.sleep 5, ExecEvent.attempt (i + 1)]) ∧
    (getErrorType (w.attemptError cmd i) = "unknown" →
      (runWithRetryAux w cmd fuel i clears false).2.take 3 =
        [ExecEvent.attempt i, ExecEvent.sleep 2, ExecEvent.attempt (i + 1)]) ∧
    runWithRetry w cmd fuel = runWithRetryAux w cmd fuel 0 0 false ∧
    (5:Nat) > 2 := by
  obtain ⟨n, rfl⟩ : ∃ n, fuel = n + 1 := ⟨fuel - 1, (Nat.succ_pred_eq_of_pos hf).symm⟩
  refine ⟨fun hc => ?_, fun hc => ?_, fun hc => ?_, rfl, by decide⟩
  · obtain ⟨rest, hrest⟩ := runWithRetryAux_head w cmd n (i + 1) (clears + 1) (w.cacheClearOk cmd clears)
    simp [runWithRetryAux, h0, hc, hrest]
  · obtain ⟨rest, hrest⟩ := runWithRetryAux_head w cmd n (i + 1) clears false
    simp [runWithRetryAux, h0, hc, hrest]
  · obtain ⟨rest, hrest⟩ := runWithRetryAux_head w cmd n (i + 1) clears false
    simp [runWithRetryAux, h0, hc, hrest]

/-- C8: every completed run exits with status 0 — for any world of
install outcomes (including ones where every install fails) and for the
check subcommand — and the exit status is 1 exactly when the argument is
neither "all", "check", nor a recognized tool name. -/
theorem claim8_exit_codes (w : World) (raw : String) (argv2 : Option String) :
    ((argOf argv2 = "all" ∨ argOf argv2 = "check" ∨ (packagesTable.lookup (argOf argv2)).isSome = true) →
      (mainRun w raw argv2).exitCode = 0) ∧
    (argOf argv2 ≠ "all" → argOf argv2 ≠ "check" →
      (packagesTable.lookup (argOf argv2)).isSome = false →
      (mainRun w raw argv2).exitCode = 1) := by
  constructor
  · rintro (h | h | h)
    · simp [mainRun, h]
    · by_cases ha : argOf argv2 = "all" <;> simp [mainRun, ha, h]
    · by_cases ha : argOf argv2 = "all"
      · simp [mainRun, ha]
      · by_cases hk : argOf argv2 = "check"
        · simp [mainRun, ha, hk]
        · cases hl : packagesTable.lookup (argOf argv2) with
          | none => rw [hl] at h; simp at h
          | some pkg => simp [mainRun, ha, hk, hl]
  · intro h1 h2 h3
    cases hl : packagesTable.lookup (argOf argv2) with
    | none => simp [mainRun, h1, h2, hl]
    | some pkg => rw [hl] at h3; simp at h3

theorem mem_partition_installed (w : World) (l : List String) : ∀ p : String,
    p ∈ (partitionPackages w l).installedPackages →
    statusOf w p = ToolStatus.updateAvailable ∨ statusOf w p = ToolStatus.unknownVersion := by
  induction l with
  | nil => intro p h; simp [partitionPackages] at h
  | cons q rest ih =>
    intro p h
    cases hs : statusOf w q <;> simp only [partitionPackages, hs] at h
    case upToDate => exact ih p h
    case notInstalled => exact ih p h
    case updateAvailable =>
      rcases List.mem_cons.mp h with rfl | h2
      · exact Or.inl hs
      · exact ih p h2
    case unknownVersion =>
      rcases List.mem_cons.mp h with rfl | h2
      · exact Or.inr hs
      · exact ih p h2

theorem mem_partition_new (w : World) (l : List String) : ∀ p : String,
    p ∈ (partitionPackages w l).newPackages → statusOf w p = ToolStatus.notInstalled := by
  induction l with
  | nil => intro p h; simp [partitionPackages] at h
  | cons q rest ih =>
    intro p h
    cases hs : statusOf w q <;> simp only [partitionPackages, hs] at h
    case upToDate => exact ih p h
    case updateAvailable => exact ih p h
    case unknownVersion => exact ih p h
    case notInstalled =>
      rcases List.mem_cons.mp h with rfl | h2
      · exact hs
      · exact ih p h2

theorem mem_partition_upToDate (w : World) (l : List String) : ∀ p : String,
    p ∈ (partitionPackages w l).upToDatePackages → statusOf w p = ToolStatus.upToDate := by
  induction l with
  | nil => intro p h; simp [partitionPackages] at h
  | cons q rest ih =>
    intro p h
    cases hs : statusOf w q <;> simp only [partitionPackages, hs] at h
    case updateAvailable => exact ih p h
    case notInstalled => exact ih p h
    case unknownVersion => exact ih p h
    case upToDate =>
      rcases List.mem_cons.mp h with rfl | h2
      · exact hs
      · exact ih p h2

/-- C9: the classification buckets are disjoint by construction: every
member of the up-to-date bucket has status upToDate, no tool with
status notInstalled is in the up-to-date bucket, and no member of the
final install plan has status upToDate. -/
theorem claim9_bucket_disjointness (w : World) (raw : String) (l : List String) (ind : Bool) :
    (∀ p ∈ (installPackagesWithConfirmation w raw l ind).upToDatePackages,
      statusOf w p = ToolStatus.upToDate) ∧
    (∀ p, statusOf w p = ToolStatus.notInstalled →
      p ∉ (installPackagesWithConfirmation w raw l ind).upToDatePackages) ∧
    (∀ p ∈ (installPackagesWithConfirmation w raw l ind).packagesToInstall,
      statusOf w p ≠ ToolStatus.upToDate) := by
  have hutd : (installPackagesWithConfirmation w raw l ind).upToDatePackages =
      (partitionPackages w l).upToDatePackages := by
    simp [installPackagesWithConfirmation]
  have hsub : ∀ p, p ∈ (installPackagesWithConfirmation w raw l ind).packagesToInstall →
      p ∈ (partitionPackages w l).installedPackages ∨ p ∈ (partitionPackages w l).newPackages := by
    intro p hp
    simp only [installPackagesWithConfirmation] at hp
    rcases List.mem_append.mp hp with h | h
    · exact Or.inl h
    · split at h
      · exact Or.inr h
      · split at h
        · exact Or.inr h
        · simp at h
  refine ⟨?_, ?_, ?_⟩
  · intro p hp
    exact mem_partition_upToDate w l p (hutd ▸ hp)
  · intro p hp hmem
    rw [mem_partition_upToDate w l p (hutd ▸ hmem)] at hp
    exact ToolStatus.noConfusion hp
  · intro p hp hq
    rcases hsub p hp with h | h
    · rcases mem_partition_installed w l p h with h2 | h2 <;> rw [hq] at h2 <;> exact ToolStatus.noConfusion h2
    · rw [mem_partition_new w l p h] at hq
      exact ToolStatus.noConfusion hq

/-- Witness for C1 at the concrete pair "2.0.0" and "1.9.9". -/
theorem claim1_witness :
    classifyTool true (some "2.0.0") (some "1.9.9") ≠ ToolStatus.updateAvailable :=
  claim1_version_comparison.2.2.2.2 "2.0.0" "1.9.9" (by decide)

/-- Witness for C2: empty confirmation input on the full tool table. -/
theorem claim2_witness :
    (installPackagesWithConfirmation wMixed "" (packagesTable.map (fun kv => kv.2)) false).packagesToInstall =
      (partitionPackages wMixed (packagesTable.map (fun kv => kv.2))).installedPackages :=
  (claim2_decline_drops_new_only wMixed "" (packagesTable.map (fun kv => kv.2)) false
    (by decide) (by decide)).1

/-- Witness for C3: an always-failing command in the network-failure
world is attempted exactly 3 times and fails. -/
theorem claim3_witness :
    (runWithRetry wNetFail "npm install -g @openai/codex" 2).1 = false ∧
    countAttempts (runWithRetry wNetFail "npm install -g @openai/codex" 2).2 = 3 :=
  (claim3_retry_attempt_counts wNetFail "npm install -g @openai/codex").1 (fun _ => rfl)

/-- Witness for C4: a failing bulk install over two packages falls back
to the two individual installs in order. -/
theorem claim4_witness :
    (installPackages wNetFail ["@google/gemini-cli", "@openai/codex"] false).1 =
      (bulkCmd ["@google/gemini-cli", "@openai/codex"], false) ::
        (["@google/gemini-cli", "@openai/codex"].map
          (fun p => (singleCmd p, (runWithRetry wNetFail (singleCmd p) 2).1))) :=
  ((claim4_bulk_then_individual_fallback wNetFail ["@google/gemini-cli", "@openai/codex"] false).1
    ⟨rfl, by decide⟩).2 (by decide)

/-- Witness for C5: a diagnostic containing both a non-empty-directory
marker and a timeout marker classifies as a cache error. -/
theorem claim5_witness :
    getErrorType "npm ERR! ENOTEMPTY: directory not empty, plus ETIMEDOUT" = "cache" :=
  (claim5_cache_precedence "npm ERR! ENOTEMPTY: directory not empty, plus ETIMEDOUT").2.1
    ⟨by decide, by decide⟩

/-- Witness for C6: in the network-failure world the trace starts with
the first attempt, the 5-second wait and the second attempt. -/
theorem claim6_witness :
    (runWithRetryAux wNetFail "npm install -g @openai/codex" 2 0 0 false).2.take 3 =
      [ExecEvent.attempt 0, ExecEvent.sleep 5, ExecEvent.attempt 1] :=
  (claim6_error_aware_retry_strategy wNetFail "npm install -g @openai/codex" 2 0 0
    (by decide) rfl).2.1 (by decide)

/-- Witness for C7 (amended form): a non-copilot binary keeps its whole
trimmed output. -/
theorem claim7_witness :
    getBinaryVersion "gemini" (some "1.0.0") = some (String.mk (trimChars "1.0.0".data)) :=
  claim7_copilot_only_first_line.2.1 "gemini" "1.0.0" (by decide)

/-- Witness for C8: a run in which every install attempt fails still
exits with status 0. -/
theorem claim8_witness :
    (mainRun wNetFail "" (some "all")).exitCode = 0 :=
  (claim8_exit_codes wNetFail "" (some "all")).1 (Or.inl (by decide))

/-- Witness for C9: the up-to-date tool of the mixed world indeed has
status upToDate. -/
theorem claim9_witness :
    statusOf wMixed "@anthropic-ai/claude-code" = ToolStatus.upToDate :=
  (claim9_bucket_disjointness wMixed "y" (packagesTable.map (fun kv => kv.2)) false).1
    "@anthropic-ai/claude-code" (by decide)

/-- Witness for C10: a truthy probe version with no npm local version is
reported unable to check. -/
theorem claim10_witness :
    checkRow (some "1.0.0") none (some "2.0.0") =
      CheckLine.unableToCheck ((some "1.0.0").getD "") :=
  (claim10_check_reporting (some "1.0.0") none (some "2.0.0") (by decide) (by decide)).1

end UpdateAiTools
